import Mathlib

/-!
Shallow embedding of the configuration generation and deployment pipeline of a
small network automation tool (source files connection_tool.py,
inventory_tool.py and task-2/main.py).

Python strings are modelled as lists of characters.  The Python string
primitives used by the pipeline (strip, split, splitlines, replace,
startswith, lower, join, the "in" containment test) are modelled first, then
each Python function of the pipeline is translated into a Lean definition of
the same name.  External collaborators (the netmiko transport and the Ollama
HTTP backend) are modelled as oracles: a Transport record describing how the
device session behaves, and a function from prompt text to the HTTP outcome.
Calls into the transport are recorded as an event trace so that call-count
properties can be stated.
-/

set_option maxRecDepth 4000

/-- Characters stripped by Python str.strip: ASCII whitespace plus the common
Unicode whitespace code points. -/
def isSpace (c : Char) : Bool :=
  c = ' ' || c = '\t' || c = '\n' || c = '\r' || c = '\x0b' || c = '\x0c' ||
  c = '\x1c' || c = '\x1d' || c = '\x1e' || c = '\x85' || c = '\xa0' ||
  c = '\u2028' || c = '\u2029'

/-- Line boundaries recognised by Python str.splitlines. -/
def isLineBreak (c : Char) : Bool :=
  c = '\n' || c = '\r' || c = '\x0b' || c = '\x0c' || c = '\x1c' ||
  c = '\x1d' || c = '\x1e' || c = '\x85' || c = '\u2028' || c = '\u2029'

/-- The character list of a Lean string literal (a Python str value). -/
def pyStr (s : String) : List Char := s.data

/-- Python str.lstrip. -/
def lstrip (s : List Char) : List Char := s.dropWhile isSpace

/-- Python str.rstrip. -/
def rstrip (s : List Char) : List Char := (s.reverse.dropWhile isSpace).reverse

/-- Python str.strip. -/
def strip (s : List Char) : List Char := lstrip (rstrip s)

/-- Worker for pySplit: accumulates the current field in reverse. -/
def pySplitGo (sep : Char) : List Char → List Char → List (List Char)
  | [], acc => [acc.reverse]
  | c :: rest, acc =>
    if c = sep then acc.reverse :: pySplitGo sep rest []
    else pySplitGo sep rest (c :: acc)

/-- Python str.split with a single-character separator: keeps empty fields,
and the empty string yields one empty field. -/
def pySplit (sep : Char) (s : List Char) : List (List Char) := pySplitGo sep s []

/-- Python "\n".join. -/
def joinLines : List (List Char) → List Char
  | [] => []
  | [l] => l
  | l :: ls => l ++ '\n' :: joinLines ls

/-- Worker for splitlines: accumulates the current line in reverse.  A CR LF
pair counts as a single boundary; a final line break does not open a new
(empty) trailing line. -/
def splitlinesGo : List Char → List Char → List (List Char)
  | [], acc => if acc.isEmpty then [] else [acc.reverse]
  | [c], acc =>
    if isLineBreak c then [acc.reverse] else [(c :: acc).reverse]
  | c :: d :: rest, acc =>
    if c = '\r' then
      if d = '\n' then acc.reverse :: splitlinesGo rest []
      else acc.reverse :: splitlinesGo (d :: rest) []
    else if isLineBreak c then acc.reverse :: splitlinesGo (d :: rest) []
    else splitlinesGo (d :: rest) (c :: acc)

/-- Python str.splitlines. -/
def splitlines (s : List Char) : List (List Char) := splitlinesGo s []

/-- Fuelled worker for replaceAll.  Matches are found left to right, are not
overlapping, and the output is not rescanned, exactly as Python str.replace
with an empty replacement. -/
def replaceAllFuel (pat : List Char) : Nat → List Char → List Char
  | 0, s => s
  | _ + 1, [] => []
  | fuel + 1, c :: rest =>
    if pat.isPrefixOf (c :: rest) then
      replaceAllFuel pat fuel (rest.drop (pat.length - 1))
    else c :: replaceAllFuel pat fuel rest

/-- Python s.replace(pat, "") for a non-empty pattern. -/
def replaceAll (pat s : List Char) : List Char := replaceAllFuel pat s.length s

/-- Python str.lower (ASCII behaviour). -/
def pyLower (s : List Char) : List Char := s.map Char.toLower

/-- Python substring containment, needle in hay. -/
def containsSub (needle hay : List Char) : Bool :=
  hay.tails.any fun t => needle.isPrefixOf t

/-- Parse one run of at least one decimal digit followed by a dot; return the
remainder on success.  Building block for the dotted-quad detector. -/
def digitsThenDot (s : List Char) : Option (List Char) :=
  if s.takeWhile Char.isDigit = [] then none
  else
    match s.dropWhile Char.isDigit with
    | '.' :: rest => some rest
    | _ => none

/-- A dotted-quad IPv4 literal (digits dot digits dot digits dot digits)
starts at the head of the string. -/
def ipv4Here (s : List Char) : Bool :=
  match digitsThenDot s with
  | none => false
  | some r1 =>
    match digitsThenDot r1 with
    | none => false
    | some r2 =>
      match digitsThenDot r2 with
      | none => false
      | some r3 => !(r3.takeWhile Char.isDigit = [])

/-- The string contains a dotted-quad IPv4 literal somewhere. -/
def containsIPv4 (s : List Char) : Bool := s.tails.any ipv4Here

/-!
connection_tool.py.

The netmiko transport is modelled by a Transport oracle: whether
ConnectHandler plus enable succeeds, and what a send_config_set call does
(returns a transcript, or raises with a message).  Every call into the
transport is recorded in an event trace returned next to the Python return
value.
-/

/-- One observable call into the netmiko transport. -/
inductive Event where
  | connAttempt
  | applyCall (cmds : List (List Char))
  | closeCall
  deriving DecidableEq

/-- Behaviour of the external netmiko transport for one device. -/
structure Transport where
  openOk : Bool
  applyResult : Except (List Char) (List Char)

/-- Number of send_config_set calls in a trace. -/
def applyCount (tr : List Event) : Nat :=
  tr.countP fun e => match e with | Event.applyCall _ => true | _ => false

/-- Number of disconnect calls in a trace. -/
def closeCount (tr : List Event) : Nat :=
  tr.countP fun e => match e with | Event.closeCall => true | _ => false

/-- Whether the transport's send_config_set returns normally. -/
def applyOk (t : Transport) : Bool :=
  match t.applyResult with
  | Except.ok _ => true
  | Except.error _ => false

/-- connect_device: try ConnectHandler and enable; on any exception echo an
error and return None. -/
def connect_device (t : Transport) : Option Unit × List Event :=
  (if t.openOk then some () else none, [Event.connAttempt])

/-- send_config: connect, and if that failed return the connection-failure
message; otherwise send the command set inside try/except with a finally
disconnect, returning the transcript or the error text as the output. -/
def send_config (t : Transport) (commands : List (List Char)) :
    List Char × List Event :=
  match connect_device t with
  | (none, tr) => (pyStr ("Connection failed; configuration not sent."), tr)
  | (some _, tr) =>
    match t.applyResult with
    | Except.ok output => (output, tr ++ [Event.applyCall commands, Event.closeCall])
    | Except.error e =>
      (pyStr ("Error sending configuration: ") ++ e,
        tr ++ [Event.applyCall commands, Event.closeCall])

/-- establish_connection: build conn info from inventory data and call
connect_device. -/
def establish_connection (t : Transport) : Option Unit × List Event :=
  connect_device t

/-- Result dictionary of send_commands: keys success, output, error. -/
structure SendResult where
  success : Bool
  output : Option (List Char)
  error : Option (List Char)
  deriving DecidableEq

/-- send_commands: with no active connection report failure; otherwise call
send_config_set and wrap its outcome.  No disconnect happens here. -/
def send_commands (conn : Option Unit) (t : Transport)
    (commands : List (List Char)) : SendResult × List Event :=
  match conn with
  | none =>
    ({ success := false, output := none,
       error := some (pyStr ("No active connection")) }, [])
  | some _ =>
    match t.applyResult with
    | Except.ok output =>
      ({ success := true, output := some output, error := none },
        [Event.applyCall commands])
    | Except.error e =>
      ({ success := false, output := none, error := some e },
        [Event.applyCall commands])

/-- The Jinja template expansion inside render_interface_config: the create
and delete triple-quoted templates with the variables substituted. -/
def rendered_config (action i ip m : List Char) : List Char :=
  if action = pyStr ("create") then
    pyStr ("\n") ++ pyStr ("        interface ") ++ i ++
    pyStr ("\n") ++ pyStr ("            ip address ") ++ ip ++ pyStr (" ") ++ m ++
    pyStr ("\n") ++ pyStr ("            no shutdown") ++
    pyStr ("\n") ++ pyStr ("        ")
  else
    pyStr ("\n") ++ pyStr ("        interface ") ++ i ++
    pyStr ("\n") ++ pyStr ("            no ip address") ++
    pyStr ("\n") ++ pyStr ("            shutdown") ++
    pyStr ("\n") ++ pyStr ("        ")

/-- render_interface_config: render the template, split into lines, strip
each line and keep the non-blank ones. -/
def render_interface_config (action i ip m : List Char) : List (List Char) :=
  (splitlines (rendered_config action i ip m)).filterMap fun l =>
    if strip l = [] then none else some (strip l)

/-!
task-2/main.py.
-/

/-- The JSON body of a successful Ollama HTTP reply: the response field may
be missing. -/
structure OllamaResp where
  response? : Option (List Char)

/-- Outcome of the requests.post call chain: an exception text, or a decoded
JSON body. -/
def QueryOutcome : Type := Except (List Char) OllamaResp

/-- query_ollama: post the prompt; any exception is caught and reported as an
error string; on success return the response field or a placeholder. -/
def query_ollama (result : QueryOutcome) : List Char :=
  match result with
  | Except.error e => pyStr ("Error communicating with Ollama: ") ++ e
  | Except.ok r => r.response?.getD (pyStr ("No response generated"))

/-- A device record from inventory.csv. -/
structure Device where
  name : List Char
  mgmtIP : List Char
  username : List Char
  password : List Char
  description : List Char

/-- The text-generation backend as an oracle from prompt text to HTTP
outcome. -/
def Backend : Type := List Char → QueryOutcome

/-- The context-aware f-string prompt built by generate_device_config. -/
def generation_prompt (d : Device) (requirements : List Char) : List Char :=
  pyStr ("\n    Generate a Cisco IOS XE configuration for the following device and requirements:\n\n    Device Information:\n    - Name: ") ++ d.name ++
  pyStr ("\n    - Type: Router\n    - Management IP: ") ++ d.mgmtIP ++
  pyStr ("\n    - Location: ") ++ d.description ++
  pyStr ("\n\n    Requirements:\n    ") ++ requirements ++
  pyStr ("\n\n    Please provide only the Cisco IOS XE configuration commands, without explanations or comments.\n    Start with the interface configuration and include all necessary commands.\n    ")

/-- generate_device_config: query the backend with the built prompt; a reply
starting with Error is classified as a generation failure (None). -/
def generate_device_config (backend : Backend) (d : Device)
    (requirements : List Char) : Option (List Char) :=
  let generated := query_ollama (backend (generation_prompt d requirements))
  if (pyStr ("Error")).isPrefixOf generated then none else some generated

/-- The loop body of process_generated_config: strip the line, drop blank and
comment lines, strip a recognised simulated-prompt marker via str.replace,
re-strip, and drop the line if the replacement emptied it. -/
def processLine (rawLine : List Char) : Option (List Char) :=
  if strip rawLine = [] then none
  else if (pyStr ("#")).isPrefixOf (strip rawLine) then none
  else if (pyStr ("!")).isPrefixOf (strip rawLine) then none
  else if (pyStr ("Router(config)#")).isPrefixOf (strip rawLine) then
    if strip (replaceAll (pyStr ("Router(config)#")) (strip rawLine)) = [] then none
    else some (strip (replaceAll (pyStr ("Router(config)#")) (strip rawLine)))
  else if (pyStr ("(config)#")).isPrefixOf (strip rawLine) then
    if strip (replaceAll (pyStr ("(config)#")) (strip rawLine)) = [] then none
    else some (strip (replaceAll (pyStr ("(config)#")) (strip rawLine)))
  else if (pyStr ("R1(config)#")).isPrefixOf (strip rawLine) then
    if strip (replaceAll (pyStr ("R1(config)#")) (strip rawLine)) = [] then none
    else some (strip (replaceAll (pyStr ("R1(config)#")) (strip rawLine)))
  else some (strip rawLine)

/-- process_generated_config: empty text gives an empty command list;
otherwise strip the whole text, split it on newlines, and run the loop body
over every line, keeping survivors in order. -/
def process_generated_config (config : List Char) : List (List Char) :=
  if config = [] then []
  else (pySplit '\n' (strip config)).filterMap processLine

/-- deploy_configuration (the Task 3 stage, disabled in the source by quote
markers but specified as live): establish the connection, fail if that
returned None, otherwise call send_commands and report its success flag.  No
disconnect appears on any path. -/
def deploy_configuration (t : Transport) (commands : List (List Char)) :
    Bool × List Event :=
  match establish_connection t with
  | (none, tr) => (false, tr)
  | (some c, tr) =>
    let r := send_commands (some c) t commands
    (r.1.success, tr ++ r.2)

/-- Per-device outcome of the main loop. -/
inductive Outcome where
  | generationFailed
  | noCommands
  | deployDeferred (cmds : List (List Char))
  | notApplied (cmds : List (List Char))
  deriving DecidableEq

/-- The body of the per-device loop in main: generate, bail out of this
device on generation failure, sanitize, and when commands survived ask for
confirmation (deployment itself is deferred to Task 3). -/
def processDevice (backend : Backend) (confirm : Device → List Char)
    (requirements : List Char) (d : Device) : Outcome :=
  match generate_device_config backend d requirements with
  | none => Outcome.generationFailed
  | some cfg =>
    let cmds := process_generated_config cfg
    if cmds = [] then Outcome.noCommands
    else if pyLower (confirm d) = pyStr ("y") then Outcome.deployDeferred cmds
    else Outcome.notApplied cmds

/-- main of task-2: refuse to run on blank requirements, then process every
inventory record in order with the loop body. -/
def task2_main (inventory : List Device) (backend : Backend)
    (confirm : Device → List Char) (requirements : List Char) :
    Option (List Outcome) :=
  if strip requirements = [] then none
  else some (inventory.map (processDevice backend confirm requirements))

/-!
Definitions written from the specification text, for the refinement claims.
-/

/-- Modelled from the spec: the fixed, ordered set of known simulated-prompt
markers of section 4.2. -/
def promptMarkers : List (List Char) :=
  [pyStr ("Router(config)#"), pyStr ("(config)#"), pyStr ("R1(config)#")]

/-- Modelled from the spec (section 4.2), as amended: trim the line, drop it
if blank or a comment, find the first marker of the ordered set present at
the start of the line, remove every left-to-right occurrence of that marker,
re-trim, and drop the line if removal emptied it. -/
def sanitizeSpecLine (rawLine : List Char) : Option (List Char) :=
  if strip rawLine = [] then none
  else if (pyStr ("#")).isPrefixOf (strip rawLine) ||
      (pyStr ("!")).isPrefixOf (strip rawLine) then none
  else
    match promptMarkers.find? (fun p => p.isPrefixOf (strip rawLine)) with
    | some p =>
      if strip (replaceAll p (strip rawLine)) = [] then none
      else some (strip (replaceAll p (strip rawLine)))
    | none => some (strip rawLine)

/-- Modelled from the spec (section 4.2), as amended: split the trimmed text
on newline boundaries and run the per-line rule over every line, keeping
survivors in their original relative order. -/
def sanitizeSpec (raw : List Char) : List (List Char) :=
  (pySplit '\n' (strip raw)).filterMap sanitizeSpecLine

/-- Total per-line image of the sanitizer, used to state that surviving
lines keep their original relative order. -/
def cleanedLine (rawLine : List Char) : List Char :=
  (processLine rawLine).getD (strip rawLine)

/-!
Library of facts about the string primitives.
-/

theorem dropWhile_eq_nil_of_all {p : Char → Bool} {l : List Char}
    (h : ∀ x ∈ l, p x = true) : List.dropWhile p l = [] := by
  induction l with
  | nil => rfl
  | cons c cs ih =>
    rw [List.dropWhile_cons, if_pos (h c (List.mem_cons_self c cs))]
    exact ih fun x hx => h x (List.mem_cons_of_mem c hx)

theorem dropWhile_append_of_all {p : Char → Bool} {a b : List Char}
    (h : ∀ x ∈ a, p x = true) :
    List.dropWhile p (a ++ b) = List.dropWhile p b := by
  simp [List.dropWhile_append, dropWhile_eq_nil_of_all h]

theorem dropWhile_cons_of_neg {p : Char → Bool} {c : Char} {l : List Char}
    (h : p c = false) : List.dropWhile p (c :: l) = c :: l := by
  simp [List.dropWhile_cons, h]

theorem head_false_of_dropWhile_eq_cons {p : Char → Bool} {l u : List Char}
    {c : Char} (h : List.dropWhile p l = c :: u) : p c = false := by
  induction l with
  | nil => simp [List.dropWhile] at h
  | cons a l ih =>
    rw [List.dropWhile_cons] at h
    rcases Bool.eq_false_or_eq_true (p a) with hp | hp
    · exact ih (by rwa [if_pos hp] at h)
    · rw [if_neg (by simp [hp])] at h
      cases h
      exact hp

theorem dropWhile_length_le (p : Char → Bool) (l : List Char) :
    (List.dropWhile p l).length ≤ l.length := by
  conv_rhs => rw [← List.takeWhile_append_dropWhile p l]
  rw [List.length_append]
  omega

theorem dropWhile_eq_self_of_length {p : Char → Bool} {l : List Char}
    (h : (List.dropWhile p l).length = l.length) : List.dropWhile p l = l := by
  have hd := List.takeWhile_append_dropWhile p l
  have hlen : (List.takeWhile p l).length + (List.dropWhile p l).length = l.length := by
    rw [← List.length_append, hd]
  have ht : List.takeWhile p l = [] := List.length_eq_zero.mp (by omega)
  conv_rhs => rw [← hd, ht]
  simp

theorem dropWhile_idem {p : Char → Bool} {l : List Char} :
    List.dropWhile p (List.dropWhile p l) = List.dropWhile p l := by
  cases h : List.dropWhile p l with
  | nil => rfl
  | cons c u => exact dropWhile_cons_of_neg (head_false_of_dropWhile_eq_cons h)

theorem mem_dropWhile {p : Char → Bool} {l : List Char} {x : Char}
    (h : x ∈ List.dropWhile p l) : x ∈ l := by
  have hd := List.takeWhile_append_dropWhile p l
  rw [← hd]
  exact List.mem_append_right _ h

theorem dropWhile_eq_self_of_append {p : Char → Bool} {a b : List Char}
    (h : List.dropWhile p (a ++ b) = a ++ b) : List.dropWhile p a = a := by
  cases a with
  | nil => rfl
  | cons d a' =>
    have hd : p d = false := by simpa using h
    exact dropWhile_cons_of_neg hd

theorem lstrip_cons_of_head {c : Char} {l : List Char} (h : isSpace c = false) :
    lstrip (c :: l) = c :: l := dropWhile_cons_of_neg h

theorem lstrip_append_of_spaces {a b : List Char}
    (h : ∀ x ∈ a, isSpace x = true) : lstrip (a ++ b) = lstrip b :=
  dropWhile_append_of_all h

theorem mem_lstrip {l : List Char} {x : Char} (h : x ∈ lstrip l) : x ∈ l :=
  mem_dropWhile h

theorem mem_rstrip {l : List Char} {x : Char} (h : x ∈ rstrip l) : x ∈ l := by
  unfold rstrip at h
  rw [List.mem_reverse] at h
  exact List.mem_reverse.mp (mem_dropWhile h)

theorem mem_strip {l : List Char} {x : Char} (h : x ∈ strip l) : x ∈ l :=
  mem_rstrip (mem_lstrip h)

theorem rev_dropWhile_of_rstrip_self {s : List Char} (h : rstrip s = s) :
    List.dropWhile isSpace s.reverse = s.reverse := by
  unfold rstrip at h
  have := congrArg List.reverse h
  rwa [List.reverse_reverse] at this

theorem rstrip_eq_self_of_rev {s : List Char}
    (h : List.dropWhile isSpace s.reverse = s.reverse) : rstrip s = s := by
  unfold rstrip
  rw [h, List.reverse_reverse]

theorem rstrip_append_of_trimmed {v i : List Char} (hi : rstrip i = i)
    (hne : i ≠ []) : rstrip (v ++ i) = v ++ i := by
  have hrev := rev_dropWhile_of_rstrip_self hi
  cases hir : i.reverse with
  | nil =>
    exact absurd (by simpa using congrArg List.reverse hir) hne
  | cons c u =>
    have hc : isSpace c = false :=
      head_false_of_dropWhile_eq_cons (by rw [hir] at hrev; exact hrev)
    apply rstrip_eq_self_of_rev
    rw [List.reverse_append, hir, List.cons_append]
    exact dropWhile_cons_of_neg hc

theorem strip_parts {s : List Char} (h : strip s = s) :
    lstrip s = s ∧ rstrip s = s := by
  have h2 : (rstrip s).length ≤ s.length := by
    unfold rstrip
    rw [List.length_reverse]
    have := dropWhile_length_le isSpace s.reverse
    simpa using this
  have h1 : (strip s).length ≤ (rstrip s).length := dropWhile_length_le _ _
  have hlen : (rstrip s).length = s.length := by
    rw [h] at h1
    omega
  have hr : rstrip s = s := by
    have : (List.dropWhile isSpace s.reverse).length = s.reverse.length := by
      unfold rstrip at hlen
      rw [List.length_reverse] at hlen ⊢
      simpa using hlen
    exact rstrip_eq_self_of_rev (dropWhile_eq_self_of_length this)
  refine ⟨?_, hr⟩
  have := h
  unfold strip at this
  rwa [hr] at this

theorem strip_eq_self_of (hl : lstrip s = s) (hr : rstrip s = s) :
    strip s = s := by
  unfold strip
  rw [hr, hl]

theorem rstrip_lstrip {t : List Char} (h : rstrip t = t) :
    rstrip (lstrip t) = lstrip t := by
  cases hl : lstrip t with
  | nil => rfl
  | cons c u =>
    have hdec : List.takeWhile isSpace t ++ (c :: u) = t := by
      rw [← hl]
      exact List.takeWhile_append_dropWhile _ _
    have hrev := rev_dropWhile_of_rstrip_self h
    have hsplit : t.reverse = (c :: u).reverse ++ (List.takeWhile isSpace t).reverse := by
      rw [← List.reverse_append, hdec]
    rw [hsplit] at hrev
    have := dropWhile_eq_self_of_append hrev
    apply rstrip_eq_self_of_rev
    exact this

theorem strip_idem (s : List Char) : strip (strip s) = strip s := by
  have htrev : (rstrip s).reverse = List.dropWhile isSpace s.reverse := by
    unfold rstrip
    rw [List.reverse_reverse]
  have hrt : rstrip (rstrip s) = rstrip s := by
    apply rstrip_eq_self_of_rev
    rw [htrev]
    exact dropWhile_idem
  show strip (lstrip (rstrip s)) = lstrip (rstrip s)
  unfold strip
  rw [rstrip_lstrip hrt]
  unfold lstrip
  exact dropWhile_idem

theorem lstrip_append_of_self {l b : List Char} (h : lstrip l = l)
    (hne : l ≠ []) : lstrip (l ++ b) = l ++ b := by
  cases l with
  | nil => cases hne rfl
  | cons c u =>
    have hc : isSpace c = false := head_false_of_dropWhile_eq_cons h
    rw [List.cons_append]
    exact lstrip_cons_of_head hc

theorem strip_pad {a mid i : List Char} {c : Char}
    (ha : ∀ x ∈ a, isSpace x = true) (hc : isSpace c = false)
    (hi : rstrip i = i) (hne : i ≠ []) :
    strip (a ++ (c :: mid) ++ i) = (c :: mid) ++ i := by
  unfold strip
  rw [rstrip_append_of_trimmed (v := a ++ (c :: mid)) hi hne]
  rw [List.append_assoc, lstrip_append_of_spaces ha, List.cons_append]
  exact lstrip_cons_of_head hc

theorem splitlinesGo_cons (c : Char) (rest acc : List Char) :
    splitlinesGo (c :: rest) acc =
      if isLineBreak c then
        acc.reverse ::
          splitlinesGo (if c = '\r' ∧ rest.head? = some '\n' then rest.tail else rest) []
      else splitlinesGo rest (c :: acc) := by
  cases rest with
  | nil =>
    by_cases hb : isLineBreak c = true
    · rw [if_pos hb, if_neg (by simp)]
      simp [splitlinesGo, hb]
    · rw [if_neg hb]
      simp [splitlinesGo, Bool.of_not_eq_true hb]
  | cons d t =>
    by_cases hr : c = '\r'
    · subst hr
      by_cases hd : d = '\n'
      · subst hd
        rw [if_pos (by decide), if_pos (by simp)]
        simp [splitlinesGo]
      · rw [if_pos (by decide), if_neg (by simp [hd])]
        simp [splitlinesGo, hd]
    · by_cases hb : isLineBreak c = true
      · rw [if_pos hb, if_neg (by simp [hr])]
        simp [splitlinesGo, hr, hb]
      · rw [if_neg hb]
        simp [splitlinesGo, hr, Bool.of_not_eq_true hb]

theorem splitlinesGo_newline (rest acc : List Char) :
    splitlinesGo ('\n' :: rest) acc = acc.reverse :: splitlinesGo rest [] := by
  rw [splitlinesGo_cons]
  rw [if_pos (by decide)]
  rw [if_neg (fun h => absurd h.1 (by decide))]

theorem splitlinesGo_absorb {seg : List Char}
    (hseg : ∀ c ∈ seg, isLineBreak c = false) :
    ∀ rest acc, splitlinesGo (seg ++ rest) acc = splitlinesGo rest (seg.reverse ++ acc) := by
  induction seg with
  | nil => simp
  | cons c s ih =>
    intro rest acc
    have hc : isLineBreak c = false := hseg c (List.mem_cons_self c s)
    rw [List.cons_append, splitlinesGo_cons, if_neg (by simp [hc])]
    rw [ih (fun x hx => hseg x (List.mem_cons_of_mem c hx)) rest (c :: acc)]
    congr 1
    simp

theorem pySplitGo_sep (sep : Char) (rest acc : List Char) :
    pySplitGo sep (sep :: rest) acc = acc.reverse :: pySplitGo sep rest [] := by
  rw [pySplitGo, if_pos rfl]

theorem pySplitGo_absorb {sep : Char} {seg : List Char} (hseg : sep ∉ seg) :
    ∀ rest acc, pySplitGo sep (seg ++ rest) acc = pySplitGo sep rest (seg.reverse ++ acc) := by
  induction seg with
  | nil => simp
  | cons c s ih =>
    intro rest acc
    have hc : ¬c = sep := fun h => hseg (by rw [h]; exact List.mem_cons_self sep s)
    rw [List.cons_append, pySplitGo, if_neg hc]
    rw [ih (fun h => hseg (List.mem_cons_of_mem c h)) rest (c :: acc)]
    congr 1
    simp

theorem pySplitGo_term {sep : Char} {seg : List Char} (hseg : sep ∉ seg)
    (acc : List Char) : pySplitGo sep seg acc = [acc.reverse ++ seg] := by
  have := pySplitGo_absorb hseg [] acc
  rw [List.append_nil] at this
  rw [this, pySplitGo]
  simp

theorem no_sep_of_mem_pySplitGo {sep : Char} :
    ∀ (s acc : List Char), sep ∉ acc → ∀ l ∈ pySplitGo sep s acc, sep ∉ l := by
  intro s
  induction s with
  | nil =>
    intro acc hacc l hl
    rw [pySplitGo] at hl
    simp at hl
    subst hl
    simpa [List.mem_reverse] using hacc
  | cons c rest ih =>
    intro acc hacc l hl
    rw [pySplitGo] at hl
    by_cases hc : c = sep
    · rw [if_pos hc] at hl
      rcases List.mem_cons.mp hl with h1 | h2
      · subst h1
        simpa [List.mem_reverse] using hacc
      · exact ih [] (by simp) l h2
    · rw [if_neg hc] at hl
      refine ih (c :: acc) ?_ l hl
      intro hmem
      rcases List.mem_cons.mp hmem with h1 | h2
      · exact hc h1.symm
      · exact hacc h2

theorem mem_pySplit_no_sep {sep : Char} {s l : List Char}
    (h : l ∈ pySplit sep s) : sep ∉ l :=
  no_sep_of_mem_pySplitGo s [] (by simp) l h

theorem joinLines_cons₂ (l l2 : List Char) (ls : List (List Char)) :
    joinLines (l :: l2 :: ls) = l ++ '\n' :: joinLines (l2 :: ls) := rfl

theorem pySplit_joinLines {out : List (List Char)} (hne : out ≠ [])
    (h : ∀ l ∈ out, '\n' ∉ l) : pySplit '\n' (joinLines out) = out := by
  induction out with
  | nil => cases hne rfl
  | cons l ls ih =>
    cases ls with
    | nil =>
      show pySplit '\n' l = [l]
      unfold pySplit
      simpa using pySplitGo_term (h l (List.mem_cons_self l [])) []
    | cons l2 ls2 =>
      rw [joinLines_cons₂]
      unfold pySplit
      rw [pySplitGo_absorb (h l (List.mem_cons_self _ _)) ('\n' :: joinLines (l2 :: ls2)) []]
      rw [pySplitGo_sep]
      rw [List.append_nil, List.reverse_reverse]
      congr 1
      exact ih (by simp) fun x hx => h x (List.mem_cons_of_mem l hx)

theorem joinLines_ne_nil {out : List (List Char)} (hne : out ≠ [])
    (h1 : ∀ l ∈ out, l ≠ []) : joinLines out ≠ [] := by
  cases out with
  | nil => cases hne rfl
  | cons l ls =>
    cases ls with
    | nil => exact h1 l (List.mem_cons_self l [])
    | cons l2 ls2 =>
      rw [joinLines_cons₂]
      simp

theorem strip_joinLines {out : List (List Char)}
    (h : ∀ l ∈ out, l ≠ [] ∧ strip l = l) :
    strip (joinLines out) = joinLines out := by
  induction out with
  | nil => rfl
  | cons l ls ih =>
    cases ls with
    | nil => exact (h l (List.mem_cons_self l [])).2
    | cons l2 ls2 =>
      rw [joinLines_cons₂]
      obtain ⟨hlne, hltrim⟩ := h l (List.mem_cons_self _ _)
      have htail : ∀ x ∈ l2 :: ls2, x ≠ [] ∧ strip x = x :=
        fun x hx => h x (List.mem_cons_of_mem l hx)
      have hjoin := ih htail
      have hjne : joinLines (l2 :: ls2) ≠ [] :=
        joinLines_ne_nil (by simp) fun x hx => (htail x hx).1
      have hshape : l ++ '\n' :: joinLines (l2 :: ls2) =
          (l ++ ['\n']) ++ joinLines (l2 :: ls2) := by simp
      apply strip_eq_self_of
      · exact lstrip_append_of_self (strip_parts hltrim).1 hlne
      · rw [hshape]
        exact rstrip_append_of_trimmed (strip_parts hjoin).2 hjne

theorem mem_replaceAllFuel {pat : List Char} {x : Char} :
    ∀ (fuel : Nat) (s : List Char), x ∈ replaceAllFuel pat fuel s → x ∈ s := by
  intro fuel
  induction fuel with
  | zero => intro s h; exact h
  | succ n ih =>
    intro s h
    cases s with
    | nil => simpa [replaceAllFuel] using h
    | cons c rest =>
      rw [replaceAllFuel] at h
      by_cases hp : pat.isPrefixOf (c :: rest) = true
      · rw [if_pos hp] at h
        exact List.mem_cons_of_mem c (List.mem_of_mem_drop (ih _ h))
      · rw [if_neg hp] at h
        rcases List.mem_cons.mp h with h1 | h2
        · exact h1 ▸ List.mem_cons_self c rest
        · exact List.mem_cons_of_mem c (ih _ h2)

theorem mem_replaceAll {pat s : List Char} {x : Char}
    (h : x ∈ replaceAll pat s) : x ∈ s :=
  mem_replaceAllFuel _ _ h

theorem filterMap_eq_self {α : Type} {f : α → Option α} {xs : List α}
    (h : ∀ x ∈ xs, f x = some x) : xs.filterMap f = xs := by
  induction xs with
  | nil => rfl
  | cons x xs ih =>
    rw [List.filterMap_cons, h x (List.mem_cons_self x xs)]
    rw [ih fun y hy => h y (List.mem_cons_of_mem x hy)]

theorem filterMap_sublist_map {α β : Type} {f : α → Option β} {g : α → β}
    (h : ∀ a b, f a = some b → g a = b) :
    ∀ l : List α, (l.filterMap f).Sublist (l.map g) := by
  intro l
  induction l with
  | nil => simp
  | cons a l ih =>
    rw [List.filterMap_cons, List.map_cons]
    cases hfa : f a with
    | none => exact ih.cons (g a)
    | some b =>
      rw [h a b hfa]
      exact ih.cons₂ b

/-!
Symbolic computation of the renderer on line-break-free parameters.
-/

theorem splitlines_rendered_create (i ip m : List Char)
    (hi : ∀ c ∈ i, isLineBreak c = false) (hip : ∀ c ∈ ip, isLineBreak c = false)
    (hm : ∀ c ∈ m, isLineBreak c = false) :
    splitlines (rendered_config (pyStr ("create")) i ip m) =
      [[], pyStr ("        interface ") ++ i,
       pyStr ("            ip address ") ++ ip ++ pyStr (" ") ++ m,
       pyStr ("            no shutdown"), pyStr ("        ")] := by
  have hA : ∀ c ∈ pyStr ("        interface "), isLineBreak c = false := by decide
  have hB : ∀ c ∈ pyStr ("            ip address "), isLineBreak c = false := by decide
  have hSp : ∀ c ∈ pyStr (" "), isLineBreak c = false := by decide
  have hC : ∀ c ∈ pyStr ("            no shutdown"), isLineBreak c = false := by decide
  unfold rendered_config
  rw [if_pos rfl]
  unfold splitlines
  rw [show pyStr ("\n") = ['\n'] from rfl]
  simp only [List.append_assoc, List.singleton_append, List.cons_append, List.nil_append]
  rw [splitlinesGo_newline]
  rw [splitlinesGo_absorb hA, splitlinesGo_absorb hi, splitlinesGo_newline]
  rw [splitlinesGo_absorb hB, splitlinesGo_absorb hip, splitlinesGo_absorb hSp,
    splitlinesGo_absorb hm, splitlinesGo_newline]
  rw [splitlinesGo_absorb hC, splitlinesGo_newline]
  rw [show splitlinesGo (pyStr ("        ")) [] = [pyStr ("        ")] from by decide]
  simp [List.reverse_append]

theorem splitlines_rendered_delete (i ip m : List Char)
    (hi : ∀ c ∈ i, isLineBreak c = false) :
    splitlines (rendered_config (pyStr ("delete")) i ip m) =
      [[], pyStr ("        interface ") ++ i, pyStr ("            no ip address"),
       pyStr ("            shutdown"), pyStr ("        ")] := by
  have hA : ∀ c ∈ pyStr ("        interface "), isLineBreak c = false := by decide
  have hC : ∀ c ∈ pyStr ("            no ip address"), isLineBreak c = false := by decide
  have hE : ∀ c ∈ pyStr ("            shutdown"), isLineBreak c = false := by decide
  unfold rendered_config
  rw [if_neg (by decide)]
  unfold splitlines
  rw [show pyStr ("\n") = ['\n'] from rfl]
  simp only [List.append_assoc, List.singleton_append, List.cons_append, List.nil_append]
  rw [splitlinesGo_newline]
  rw [splitlinesGo_absorb hA, splitlinesGo_absorb hi, splitlinesGo_newline]
  rw [splitlinesGo_absorb hC, splitlinesGo_newline]
  rw [splitlinesGo_absorb hE, splitlinesGo_newline]
  rw [show splitlinesGo (pyStr ("        ")) [] = [pyStr ("        ")] from by decide]
  simp [List.reverse_append]

theorem strip_interface_line {i : List Char} (hit : strip i = i) (hine : i ≠ []) :
    strip (pyStr ("        interface ") ++ i) = pyStr ("interface ") ++ i := by
  rw [show pyStr ("        interface ") ++ i =
    pyStr ("        ") ++ ('i' :: pyStr ("nterface ")) ++ i from rfl]
  rw [strip_pad (by decide) (by decide) (strip_parts hit).2 hine]
  rfl

theorem interface_line_ne_nil (i : List Char) : pyStr ("interface ") ++ i ≠ [] := by
  rw [show pyStr ("interface ") = 'i' :: pyStr ("nterface ") from rfl]
  simp

theorem render_create_eq (i ip m : List Char)
    (hine : i ≠ []) (hit : strip i = i) (hib : ∀ c ∈ i, isLineBreak c = false)
    (hipb : ∀ c ∈ ip, isLineBreak c = false)
    (hmne : m ≠ []) (hmt : strip m = m) (hmb : ∀ c ∈ m, isLineBreak c = false) :
    render_interface_config (pyStr ("create")) i ip m =
      [pyStr ("interface ") ++ i,
       pyStr ("ip address ") ++ ip ++ pyStr (" ") ++ m,
       pyStr ("no shutdown")] := by
  unfold render_interface_config
  rw [splitlines_rendered_create i ip m hib hipb hmb]
  have hs2 := strip_interface_line hit hine
  have e3 : pyStr ("            ip address ") ++ ip ++ pyStr (" ") ++ m =
      pyStr ("            ") ++ ('i' :: (pyStr ("p address ") ++ ip ++ pyStr (" "))) ++ m := by
    rw [show pyStr ("            ip address ") =
      pyStr ("            ") ++ ('i' :: pyStr ("p address ")) from rfl]
    simp [List.append_assoc]
  have hs3 : strip (pyStr ("            ip address ") ++ ip ++ pyStr (" ") ++ m) =
      pyStr ("ip address ") ++ ip ++ pyStr (" ") ++ m := by
    rw [e3, strip_pad (by decide) (by decide) (strip_parts hmt).2 hmne]
    rw [show pyStr ("ip address ") = 'i' :: pyStr ("p address ") from rfl]
    simp [List.append_assoc]
  have h3ne : pyStr ("ip address ") ++ ip ++ pyStr (" ") ++ m ≠ [] := by
    rw [show pyStr ("ip address ") = 'i' :: pyStr ("p address ") from rfl]
    simp
  rw [List.filterMap_cons, List.filterMap_cons, List.filterMap_cons,
    List.filterMap_cons, List.filterMap_cons, List.filterMap_nil]
  rw [if_pos (show strip ([] : List Char) = [] from rfl)]
  rw [hs2, if_neg (interface_line_ne_nil i), hs3, if_neg h3ne]
  rw [show strip (pyStr ("            no shutdown")) = pyStr ("no shutdown") from by decide]
  rw [if_neg (show ¬pyStr ("no shutdown") = [] from by decide)]
  rw [if_pos (show strip (pyStr ("        ")) = [] from by decide)]

theorem render_delete_eq (i ip m : List Char)
    (hine : i ≠ []) (hit : strip i = i) (hib : ∀ c ∈ i, isLineBreak c = false) :
    render_interface_config (pyStr ("delete")) i ip m =
      [pyStr ("interface ") ++ i, pyStr ("no ip address"), pyStr ("shutdown")] := by
  unfold render_interface_config
  rw [splitlines_rendered_delete i ip m hib]
  have hs2 := strip_interface_line hit hine
  rw [List.filterMap_cons, List.filterMap_cons, List.filterMap_cons,
    List.filterMap_cons, List.filterMap_cons, List.filterMap_nil]
  rw [if_pos (show strip ([] : List Char) = [] from rfl)]
  rw [hs2, if_neg (interface_line_ne_nil i)]
  rw [show strip (pyStr ("            no ip address")) = pyStr ("no ip address") from by decide]
  rw [if_neg (show ¬pyStr ("no ip address") = [] from by decide)]
  rw [show strip (pyStr ("            shutdown")) = pyStr ("shutdown") from by decide]
  rw [if_neg (show ¬pyStr ("shutdown") = [] from by decide)]
  rw [if_pos (show strip (pyStr ("        ")) = [] from by decide)]

theorem self_mem_tails (l : List Char) : l ∈ l.tails := by
  cases l with
  | nil => simp
  | cons a t =>
    rw [List.tails_cons]
    exact List.mem_cons_self _ _

theorem append_mem_tails (pre x : List Char) : x ∈ (pre ++ x).tails := by
  induction pre with
  | nil => exact self_mem_tails x
  | cons a p ih =>
    rw [List.cons_append, List.tails_cons]
    exact List.mem_cons_of_mem _ ih

theorem isPrefixOf_append_self (n post : List Char) :
    n.isPrefixOf (n ++ post) = true := by
  induction n with
  | nil => simp [List.isPrefixOf]
  | cons c t ih => simpa [List.isPrefixOf] using ih

theorem containsSub_append (n pre post : List Char) :
    containsSub n (pre ++ n ++ post) = true := by
  unfold containsSub
  rw [List.any_eq_true]
  refine ⟨n ++ post, ?_, isPrefixOf_append_self n post⟩
  rw [List.append_assoc]
  exact append_mem_tails pre (n ++ post)

theorem ipv4Here_cons_nondigit {c : Char} (hc : Char.isDigit c = false)
    (x : List Char) : ipv4Here (c :: x) = false := by
  unfold ipv4Here digitsThenDot
  simp [List.takeWhile_cons, hc]

theorem containsIPv4_append_nondigits {a s : List Char}
    (ha : ∀ c ∈ a, Char.isDigit c = false) (hs : containsIPv4 s = false) :
    containsIPv4 (a ++ s) = false := by
  induction a with
  | nil => simpa using hs
  | cons c a' ih =>
    rw [List.cons_append]
    unfold containsIPv4
    rw [List.tails_cons, List.any_cons]
    rw [ipv4Here_cons_nondigit (ha c (List.mem_cons_self c a')) _]
    simp only [Bool.false_or]
    exact ih fun x hx => ha x (List.mem_cons_of_mem c hx)

theorem ipaddr_line_ne_nil (ip m : List Char) :
    pyStr ("ip address ") ++ ip ++ pyStr (" ") ++ m ≠ [] := by
  rw [show pyStr ("ip address ") = 'i' :: pyStr ("p address ") from rfl]
  simp

/-- Claim C7, counterexample: with a line break inside the (non-empty)
interface name the create render has four lines, not three; and with a mask
carrying trailing whitespace the rendered address line does not contain the
given mask verbatim. -/
theorem render_create_claim_cex :
    (render_interface_config (pyStr ("create")) (pyStr ("Gi0/1\nGi0/2"))
      (pyStr ("10.0.0.1")) (pyStr ("255.255.255.0"))).length = 4 ∧
    pyStr ("Gi0/1\nGi0/2") ≠ [] ∧
    render_interface_config (pyStr ("create")) (pyStr ("Gi0/1"))
      (pyStr ("10.0.0.1")) (pyStr ("255.255.255.0 ")) =
      [pyStr ("interface Gi0/1"), pyStr ("ip address 10.0.0.1 255.255.255.0"),
       pyStr ("no shutdown")] ∧
    pyStr ("255.255.255.0 ") ≠ [] ∧
    containsSub (pyStr ("255.255.255.0 "))
      (pyStr ("ip address 10.0.0.1 255.255.255.0")) = false := by decide

/-- Claim C7 (amended): for non-empty, trimmed, line-break-free
interfaceName, ipAddress and subnetMask, the create render is exactly the
interface-selection line, the address line carrying both the address and the
mask, and the enable line; no line is empty. -/
theorem render_create_amended : ∀ i ip m : List Char,
    i ≠ [] → strip i = i → (∀ c ∈ i, isLineBreak c = false) →
    ip ≠ [] → strip ip = ip → (∀ c ∈ ip, isLineBreak c = false) →
    m ≠ [] → strip m = m → (∀ c ∈ m, isLineBreak c = false) →
    render_interface_config (pyStr ("create")) i ip m =
      [pyStr ("interface ") ++ i,
       pyStr ("ip address ") ++ ip ++ pyStr (" ") ++ m,
       pyStr ("no shutdown")] ∧
    containsSub ip (pyStr ("ip address ") ++ ip ++ pyStr (" ") ++ m) = true ∧
    containsSub m (pyStr ("ip address ") ++ ip ++ pyStr (" ") ++ m) = true ∧
    (∀ l ∈ render_interface_config (pyStr ("create")) i ip m, l ≠ []) := by
  intro i ip m hine hit hib hipne hipt hipb hmne hmt hmb
  have heq := render_create_eq i ip m hine hit hib hipb hmne hmt hmb
  refine ⟨heq, ?_, ?_, ?_⟩
  · have := containsSub_append ip (pyStr ("ip address ")) (pyStr (" ") ++ m)
    simpa [List.append_assoc] using this
  · have := containsSub_append m (pyStr ("ip address ") ++ ip ++ pyStr (" ")) []
    simpa [List.append_assoc] using this
  · rw [heq]
    intro l hl
    simp only [List.mem_cons] at hl
    rcases hl with h | h | h | h
    · subst h
      exact interface_line_ne_nil i
    · subst h
      exact ipaddr_line_ne_nil ip m
    · subst h
      decide
    · simp at h

/-- Witness for C7 (amended) at the end-to-end example of the spec. -/
theorem render_create_amended_witness :
    render_interface_config (pyStr ("create")) (pyStr ("Gi0/1")) (pyStr ("10.0.0.1"))
        (pyStr ("255.255.255.0")) =
      [pyStr ("interface ") ++ pyStr ("Gi0/1"),
       pyStr ("ip address ") ++ pyStr ("10.0.0.1") ++ pyStr (" ") ++ pyStr ("255.255.255.0"),
       pyStr ("no shutdown")] ∧
    containsSub (pyStr ("10.0.0.1"))
      (pyStr ("ip address ") ++ pyStr ("10.0.0.1") ++ pyStr (" ") ++ pyStr ("255.255.255.0")) = true ∧
    containsSub (pyStr ("255.255.255.0"))
      (pyStr ("ip address ") ++ pyStr ("10.0.0.1") ++ pyStr (" ") ++ pyStr ("255.255.255.0")) = true ∧
    (∀ l ∈ render_interface_config (pyStr ("create")) (pyStr ("Gi0/1")) (pyStr ("10.0.0.1"))
        (pyStr ("255.255.255.0")), l ≠ []) :=
  render_create_amended (pyStr ("Gi0/1")) (pyStr ("10.0.0.1")) (pyStr ("255.255.255.0"))
    (by decide) (by decide) (by decide) (by decide) (by decide) (by decide)
    (by decide) (by decide) (by decide)

/-- Claim C8, counterexample: an interface name that is itself a dotted-quad
IP literal puts an IP address into the interface-selection line of the delete
render; a line break inside the name changes the line count. -/
theorem render_delete_claim_cex :
    render_interface_config (pyStr ("delete")) (pyStr ("10.0.0.1")) (pyStr ("")) (pyStr ("")) =
      [pyStr ("interface 10.0.0.1"), pyStr ("no ip address"), pyStr ("shutdown")] ∧
    containsIPv4 (pyStr ("interface 10.0.0.1")) = true ∧
    pyStr ("10.0.0.1") ≠ [] ∧
    (render_interface_config (pyStr ("delete")) (pyStr ("Gi0/1\nGi0/2"))
      (pyStr ("")) (pyStr (""))).length = 4 := by decide

/-- Claim C8 (amended): for a non-empty, trimmed, line-break-free
interfaceName containing no dotted-quad IP literal, the delete render is
exactly the selection line, the address-removal line and the disable line;
no output line contains an IP literal. -/
theorem render_delete_amended : ∀ i ip m : List Char,
    i ≠ [] → strip i = i → (∀ c ∈ i, isLineBreak c = false) →
    containsIPv4 i = false →
    render_interface_config (pyStr ("delete")) i ip m =
      [pyStr ("interface ") ++ i, pyStr ("no ip address"), pyStr ("shutdown")] ∧
    (∀ l ∈ render_interface_config (pyStr ("delete")) i ip m, containsIPv4 l = false) ∧
    (render_interface_config (pyStr ("delete")) i ip m).length = 3 := by
  intro i ip m hine hit hib hipv4
  have heq := render_delete_eq i ip m hine hit hib
  refine ⟨heq, ?_, by rw [heq]; rfl⟩
  rw [heq]
  intro l hl
  simp only [List.mem_cons] at hl
  rcases hl with h | h | h | h
  · subst h
    exact containsIPv4_append_nondigits (by decide) hipv4
  · subst h
    decide
  · subst h
    decide
  · simp at h

/-- Witness for C8 (amended) at interface Gi0/1. -/
theorem render_delete_amended_witness :
    render_interface_config (pyStr ("delete")) (pyStr ("Gi0/1")) (pyStr ("")) (pyStr ("")) =
      [pyStr ("interface ") ++ pyStr ("Gi0/1"), pyStr ("no ip address"), pyStr ("shutdown")] ∧
    (∀ l ∈ render_interface_config (pyStr ("delete")) (pyStr ("Gi0/1")) (pyStr ("")) (pyStr ("")),
      containsIPv4 l = false) ∧
    (render_interface_config (pyStr ("delete")) (pyStr ("Gi0/1")) (pyStr ("")) (pyStr (""))).length = 3 :=
  render_delete_amended (pyStr ("Gi0/1")) (pyStr ("")) (pyStr (""))
    (by decide) (by decide) (by decide) (by decide)

/-!
Facts about the sanitizer output lines.
-/

theorem processLine_facts {rawLine l : List Char} (h : processLine rawLine = some l) :
    l ≠ [] ∧ strip l = l ∧ ∀ c ∈ l, c ∈ rawLine := by
  unfold processLine at h
  split_ifs at h with h1 h2 h3 h4 h5 h6 h7 h8 h9
  all_goals injection h with h
  all_goals subst h
  all_goals refine ⟨by assumption, strip_idem _, fun c hc => ?_⟩
  all_goals first
    | exact mem_strip hc
    | exact mem_strip (mem_replaceAll (mem_strip hc))

theorem sanitize_out_facts (raw : List Char) :
    ∀ l ∈ process_generated_config raw, l ≠ [] ∧ strip l = l ∧ '\n' ∉ l := by
  intro l hl
  unfold process_generated_config at hl
  by_cases hraw : raw = []
  · rw [if_pos hraw] at hl
    exact absurd hl (List.not_mem_nil l)
  · rw [if_neg hraw] at hl
    obtain ⟨line, hline, hproc⟩ := List.mem_filterMap.mp hl
    obtain ⟨hne, htrim, hsub⟩ := processLine_facts hproc
    exact ⟨hne, htrim, fun hmem => mem_pySplit_no_sep hline (hsub '\n' hmem)⟩

/-- Claim C9: every CommandList produced by the renderer or the sanitizer
satisfies the CommandList invariant: all output lines are non-empty and equal
to their own trim, and the surviving source lines keep their original
relative order (the output is a sublist of the per-line images of the split
source lines, in source order). -/
theorem commandList_invariant : ∀ action i ip m raw : List Char,
    (∀ l ∈ render_interface_config action i ip m, l ≠ [] ∧ strip l = l) ∧
    (∀ l ∈ process_generated_config raw, l ≠ [] ∧ strip l = l) ∧
    (render_interface_config action i ip m).Sublist
      ((splitlines (rendered_config action i ip m)).map strip) ∧
    (process_generated_config raw).Sublist
      ((pySplit '\n' (strip raw)).map cleanedLine) := by
  intro action i ip m raw
  refine ⟨?_, ?_, ?_, ?_⟩
  · intro l hl
    unfold render_interface_config at hl
    obtain ⟨x, hx, hfx⟩ := List.mem_filterMap.mp hl
    by_cases hxe : strip x = []
    · rw [if_pos hxe] at hfx
      cases hfx
    · rw [if_neg hxe] at hfx
      injection hfx with hfx
      subst hfx
      exact ⟨hxe, strip_idem x⟩
  · intro l hl
    obtain ⟨a, b, _⟩ := sanitize_out_facts raw l hl
    exact ⟨a, b⟩
  · unfold render_interface_config
    refine filterMap_sublist_map ?_ _
    intro x y hy
    by_cases hxe : strip x = []
    · rw [if_pos hxe] at hy
      cases hy
    · rw [if_neg hxe] at hy
      exact Option.some.inj hy
  · unfold process_generated_config
    by_cases hraw : raw = []
    · rw [if_pos hraw]
      exact List.nil_sublist _
    · rw [if_neg hraw]
      refine filterMap_sublist_map ?_ _
      intro a b h
      unfold cleanedLine
      rw [h]
      rfl

/-- Witness for C9 at a concrete sanitizer run and render. -/
theorem commandList_invariant_witness :
    pyStr ("interface Gi0/1") ≠ [] ∧
      strip (pyStr ("interface Gi0/1")) = pyStr ("interface Gi0/1") :=
  (commandList_invariant (pyStr ("create")) (pyStr ("Gi0/1")) (pyStr ("10.0.0.1"))
      (pyStr ("255.255.255.0")) (pyStr ("Router(config)#interface Gi0/1"))).2.1
    (pyStr ("interface Gi0/1")) (by decide)

theorem processLine_eq_specLine (l : List Char) :
    processLine l = sanitizeSpecLine l := by
  unfold processLine sanitizeSpecLine promptMarkers
  by_cases hE : strip l = []
  · simp [hE]
  · rw [if_neg hE, if_neg hE]
    cases hH : (pyStr ("#")).isPrefixOf (strip l) <;>
      cases hB : (pyStr ("!")).isPrefixOf (strip l) <;>
        cases h1 : (pyStr ("Router(config)#")).isPrefixOf (strip l) <;>
          cases h2 : (pyStr ("(config)#")).isPrefixOf (strip l) <;>
            cases h3 : (pyStr ("R1(config)#")).isPrefixOf (strip l) <;>
              simp [hH, hB, h1, h2, h3, List.find?]

/-- Claim C1, counterexample: when a line begins with a recognised prompt
marker, str.replace also deletes a second occurrence of the marker in the
middle of the line, so mid-line marker text is not left unchanged. -/
theorem sanitizer_midline_marker_cex :
    process_generated_config (pyStr ("Router(config)#interface Router(config)#Gi0")) =
      [pyStr ("interface Gi0")] ∧
    process_generated_config (pyStr ("Router(config)#interface Router(config)#Gi0")) ≠
      [pyStr ("interface Router(config)#Gi0")] := by decide

/-- Claim C1 (amended): the sanitizer equals the spec-modelled pipeline in
which, per trimmed non-comment line, the first marker of the ordered set
present at the start of the line has all of its left-to-right occurrences
removed (not only the leading one), with re-trimming and dropping of emptied
lines; the three spec examples evaluate as stated. -/
theorem sanitizer_refines_spec :
    (∀ raw : List Char, process_generated_config raw = sanitizeSpec raw) ∧
    process_generated_config (pyStr ("Router(config)#interface Gi0/1")) =
      [pyStr ("interface Gi0/1")] ∧
    process_generated_config (pyStr ("# comment")) = [] ∧
    process_generated_config (pyStr ("")) = [] := by
  refine ⟨?_, by decide, by decide, by decide⟩
  intro raw
  by_cases h : raw = []
  · subst h
    decide
  · unfold process_generated_config sanitizeSpec
    rw [if_neg h]
    exact List.filterMap_congr fun a _ => processLine_eq_specLine a

theorem processLine_id {l : List Char} (hne : l ≠ []) (ht : strip l = l)
    (hH : (pyStr ("#")).isPrefixOf l = false)
    (hB : (pyStr ("!")).isPrefixOf l = false)
    (hM : ∀ p ∈ promptMarkers, p.isPrefixOf l = false) :
    processLine l = some l := by
  have h1 := hM (pyStr ("Router(config)#")) (by simp [promptMarkers])
  have h2 := hM (pyStr ("(config)#")) (by simp [promptMarkers])
  have h3 := hM (pyStr ("R1(config)#")) (by simp [promptMarkers])
  unfold processLine
  rw [ht]
  rw [if_neg hne, if_neg (by simp [hH]), if_neg (by simp [hB]),
    if_neg (by simp [h1]), if_neg (by simp [h2]), if_neg (by simp [h3])]

/-- Claim C6, counterexample: sanitizing once can expose a comment marker, a
bang marker, or a fresh prompt marker at the start of an output line (the
replacement is not rescanned), and a second pass then strips further, so the
sanitizer is not idempotent on its own output. -/
theorem sanitize_not_idem_cex :
    process_generated_config (pyStr ("Router(config)## x")) = [pyStr ("# x")] ∧
    process_generated_config
      (joinLines (process_generated_config (pyStr ("Router(config)## x")))) = [] ∧
    process_generated_config (pyStr ("Router(config)#!exit")) = [pyStr ("!exit")] ∧
    process_generated_config
      (joinLines (process_generated_config (pyStr ("Router(config)#!exit")))) = [] ∧
    process_generated_config
      (pyStr ("Router(config)#RouteRouter(config)#r(config)#x")) =
      [pyStr ("Router(config)#x")] ∧
    process_generated_config
      (joinLines (process_generated_config
        (pyStr ("Router(config)#RouteRouter(config)#r(config)#x")))) =
      [pyStr ("x")] := by decide

/-- Claim C6 (amended): the sanitizer is idempotent on its own output
whenever no output line itself begins with a comment marker, a bang marker,
or a recognised prompt marker. -/
theorem sanitize_idem_amended : ∀ raw : List Char,
    (∀ l ∈ process_generated_config raw,
      (pyStr ("#")).isPrefixOf l = false ∧ (pyStr ("!")).isPrefixOf l = false ∧
      (∀ p ∈ promptMarkers, p.isPrefixOf l = false)) →
    process_generated_config (joinLines (process_generated_config raw)) =
      process_generated_config raw := by
  intro raw hsafe
  by_cases hout : process_generated_config raw = []
  · rw [hout]
    decide
  · have hfacts := sanitize_out_facts raw
    have hjoin_ne : joinLines (process_generated_config raw) ≠ [] :=
      joinLines_ne_nil hout fun l hl => (hfacts l hl).1
    conv_lhs => rw [process_generated_config]
    rw [if_neg hjoin_ne]
    rw [strip_joinLines fun l hl => ⟨(hfacts l hl).1, (hfacts l hl).2.1⟩]
    rw [pySplit_joinLines hout fun l hl => (hfacts l hl).2.2]
    refine filterMap_eq_self fun l hl => ?_
    obtain ⟨hne, ht, _⟩ := hfacts l hl
    obtain ⟨hH, hB, hM⟩ := hsafe l hl
    exact processLine_id hne ht hH hB hM

/-- Witness for C6 (amended) at a typical generated snippet. -/
theorem sanitize_idem_amended_witness :
    process_generated_config
      (joinLines (process_generated_config
        (pyStr ("Router(config)#interface Gi0/1\n ip address 10.0.0.1 255.255.255.0\n! note\n")))) =
      process_generated_config
        (pyStr ("Router(config)#interface Gi0/1\n ip address 10.0.0.1 255.255.255.0\n! note\n")) :=
  sanitize_idem_amended
    (pyStr ("Router(config)#interface Gi0/1\n ip address 10.0.0.1 255.255.255.0\n! note\n"))
    (by decide)

/-- Claim C2, counterexample: deploying an empty CommandList with a working
transport still calls send_config_set (once, with the empty list) in both the
task-2 deploy path and send_config, so the apply operation is not skipped. -/
theorem deploy_empty_claim_cex :
    (deploy_configuration { openOk := true, applyResult := Except.ok (pyStr ("ok")) } []).1 = true ∧
    applyCount (deploy_configuration
      { openOk := true, applyResult := Except.ok (pyStr ("ok")) } []).2 = 1 ∧
    applyCount (send_config
      { openOk := true, applyResult := Except.ok (pyStr ("ok")) } []).2 = 1 := by decide

/-- Claim C2 (amended): an empty CommandList is not special-cased: whenever
the session opens, deployment invokes send_config_set exactly once, passing
the empty list, and reports success exactly when the apply operation does
not raise; the output is the transport transcript, not a forced empty
string. -/
theorem deploy_empty_commandlist_amended : ∀ t : Transport, t.openOk = true →
    deploy_configuration t [] = (applyOk t, [Event.connAttempt, Event.applyCall []]) ∧
    (send_config t []).2 = [Event.connAttempt, Event.applyCall [], Event.closeCall] := by
  intro t h
  cases har : t.applyResult <;>
    simp [deploy_configuration, establish_connection, connect_device,
      send_commands, send_config, applyOk, h, har]

/-- Witness for C2 (amended). -/
theorem deploy_empty_commandlist_amended_witness :
    deploy_configuration { openOk := true, applyResult := Except.ok (pyStr ("ok")) } [] =
      (applyOk { openOk := true, applyResult := Except.ok (pyStr ("ok")) },
        [Event.connAttempt, Event.applyCall []]) ∧
    (send_config { openOk := true, applyResult := Except.ok (pyStr ("ok")) } []).2 =
      [Event.connAttempt, Event.applyCall [], Event.closeCall] :=
  deploy_empty_commandlist_amended
    { openOk := true, applyResult := Except.ok (pyStr ("ok")) } rfl

/-- Claim C3, evaluation at the failing input: with a session that opens and
an apply that raises, the task-2 deployment path reports succeeded false but
never invokes disconnect, while send_config disconnects exactly once on both
the failing and the successful apply path. -/
theorem deploy_never_closes_session :
    deploy_configuration { openOk := true, applyResult := Except.error (pyStr ("read timeout")) }
        [pyStr ("interface Gi0/1")] =
      (false, [Event.connAttempt, Event.applyCall [pyStr ("interface Gi0/1")]]) ∧
    closeCount (deploy_configuration
      { openOk := true, applyResult := Except.error (pyStr ("read timeout")) }
      [pyStr ("interface Gi0/1")]).2 = 0 ∧
    closeCount (send_config
      { openOk := true, applyResult := Except.error (pyStr ("read timeout")) }
      [pyStr ("interface Gi0/1")]).2 = 1 ∧
    closeCount (send_config
      { openOk := true, applyResult := Except.ok (pyStr ("ok")) }
      [pyStr ("interface Gi0/1")]).2 = 1 := by decide

/-- Claim C4: when opening the session fails, every deployment entry point
returns a failure result carrying a connection message and send_config_set
is never reached. -/
theorem connect_failure_no_apply : ∀ (t : Transport) (commands : List (List Char)),
    t.openOk = false →
    send_config t commands =
      (pyStr ("Connection failed; configuration not sent."), [Event.connAttempt]) ∧
    deploy_configuration t commands = (false, [Event.connAttempt]) ∧
    applyCount (send_config t commands).2 = 0 ∧
    applyCount (deploy_configuration t commands).2 = 0 ∧
    send_commands none t commands =
      ({ success := false, output := none,
         error := some (pyStr ("No active connection")) }, []) := by
  intro t commands h
  have hc : connect_device t = (none, [Event.connAttempt]) := by
    simp [connect_device, h]
  refine ⟨?_, ?_, ?_, ?_, rfl⟩ <;>
    simp [send_config, deploy_configuration, establish_connection, hc, applyCount]

/-- Witness for C4 at a concrete unreachable transport. -/
theorem connect_failure_no_apply_witness :
    send_config { openOk := false, applyResult := Except.ok (pyStr ("ok")) }
        [pyStr ("interface Gi0/1")] =
      (pyStr ("Connection failed; configuration not sent."), [Event.connAttempt]) ∧
    deploy_configuration { openOk := false, applyResult := Except.ok (pyStr ("ok")) }
        [pyStr ("interface Gi0/1")] = (false, [Event.connAttempt]) ∧
    applyCount (send_config { openOk := false, applyResult := Except.ok (pyStr ("ok")) }
      [pyStr ("interface Gi0/1")]).2 = 0 ∧
    applyCount (deploy_configuration { openOk := false, applyResult := Except.ok (pyStr ("ok")) }
      [pyStr ("interface Gi0/1")]).2 = 0 ∧
    send_commands none { openOk := false, applyResult := Except.ok (pyStr ("ok")) }
        [pyStr ("interface Gi0/1")] =
      ({ success := false, output := none,
         error := some (pyStr ("No active connection")) }, []) :=
  connect_failure_no_apply
    { openOk := false, applyResult := Except.ok (pyStr ("ok")) }
    [pyStr ("interface Gi0/1")] rfl

/-- Claim C5: in the task-2 main loop, a device whose generation fails is
reported as skipped while every earlier and later inventory record is still
processed with the ordinary per-device body; the run is never aborted. -/
theorem pipeline_isolates_generation_failure :
    ∀ (inv1 inv2 : List Device) (d : Device) (backend : Backend)
      (confirm : Device → List Char) (req : List Char),
      strip req ≠ [] →
      generate_device_config backend d req = none →
      task2_main (inv1 ++ d :: inv2) backend confirm req =
        some (inv1.map (processDevice backend confirm req) ++
          Outcome.generationFailed :: inv2.map (processDevice backend confirm req)) := by
  intro inv1 inv2 d backend confirm req hreq hgen
  unfold task2_main
  rw [if_neg hreq, List.map_append, List.map_cons]
  have hd : processDevice backend confirm req d = Outcome.generationFailed := by
    unfold processDevice
    rw [hgen]
  rw [hd]

/-- Witness for C5: three devices, the backend fails exactly on the second
device's prompt, devices one and three are still processed. -/
theorem pipeline_isolates_generation_failure_witness :
    task2_main
      ([⟨pyStr ("R1"), pyStr ("10.0.0.1"), pyStr ("admin"), pyStr ("x"), pyStr ("core")⟩] ++
        ⟨pyStr ("R2"), pyStr ("10.0.0.2"), pyStr ("admin"), pyStr ("x"), pyStr ("edge")⟩ ::
        [⟨pyStr ("R3"), pyStr ("10.0.0.3"), pyStr ("admin"), pyStr ("x"), pyStr ("lab")⟩])
      (fun p => if containsSub (pyStr ("- Name: R2")) p then
          Except.error (pyStr ("connection refused"))
        else Except.ok { response? := some (pyStr ("interface Gi0/1\nno shutdown")) })
      (fun _ => pyStr ("n")) (pyStr ("Bring up Gi0/1")) =
      some ([⟨pyStr ("R1"), pyStr ("10.0.0.1"), pyStr ("admin"), pyStr ("x"), pyStr ("core")⟩].map
          (processDevice
            (fun p => if containsSub (pyStr ("- Name: R2")) p then
                Except.error (pyStr ("connection refused"))
              else Except.ok { response? := some (pyStr ("interface Gi0/1\nno shutdown")) })
            (fun _ => pyStr ("n")) (pyStr ("Bring up Gi0/1"))) ++
        Outcome.generationFailed ::
          [⟨pyStr ("R3"), pyStr ("10.0.0.3"), pyStr ("admin"), pyStr ("x"), pyStr ("lab")⟩].map
            (processDevice
              (fun p => if containsSub (pyStr ("- Name: R2")) p then
                  Except.error (pyStr ("connection refused"))
                else Except.ok { response? := some (pyStr ("interface Gi0/1\nno shutdown")) })
              (fun _ => pyStr ("n")) (pyStr ("Bring up Gi0/1")))) :=
  pipeline_isolates_generation_failure
    [⟨pyStr ("R1"), pyStr ("10.0.0.1"), pyStr ("admin"), pyStr ("x"), pyStr ("core")⟩]
    [⟨pyStr ("R3"), pyStr ("10.0.0.3"), pyStr ("admin"), pyStr ("x"), pyStr ("lab")⟩]
    ⟨pyStr ("R2"), pyStr ("10.0.0.2"), pyStr ("admin"), pyStr ("x"), pyStr ("edge")⟩
    (fun p => if containsSub (pyStr ("- Name: R2")) p then
        Except.error (pyStr ("connection refused"))
      else Except.ok { response? := some (pyStr ("interface Gi0/1\nno shutdown")) })
    (fun _ => pyStr ("n")) (pyStr ("Bring up Gi0/1"))
    (by decide) (by decide)

/-- Claim C10: query_ollama is total over the modelled HTTP outcomes: every
failure yields the fixed error text followed by the cause, a present
response field is returned verbatim, a missing one yields the placeholder;
generate_device_config classifies a reply as a generation failure exactly
when it starts with Error, so a genuine model output beginning with Error is
discarded as well. -/
theorem query_ollama_error_contract :
    ∀ (backend : Backend) (d : Device) (req e resp : List Char),
      query_ollama (Except.error e) = pyStr ("Error communicating with Ollama: ") ++ e ∧
      query_ollama (Except.ok { response? := some resp }) = resp ∧
      query_ollama (Except.ok { response? := none }) = pyStr ("No response generated") ∧
      (generate_device_config backend d req = none ↔
        (pyStr ("Error")).isPrefixOf (query_ollama (backend (generation_prompt d req))) = true) ∧
      generate_device_config
        (fun _ => Except.ok { response? := some (pyStr ("Error counters cleared on Gi0/1")) })
        d req = none := by
  intro backend d req e resp
  refine ⟨rfl, rfl, rfl, ?_, ?_⟩
  · unfold generate_device_config
    cases h : (pyStr ("Error")).isPrefixOf (query_ollama (backend (generation_prompt d req))) <;>
      simp [h]
  · have hbeta : generate_device_config
        (fun _ => Except.ok { response? := some (pyStr ("Error counters cleared on Gi0/1")) })
        d req =
        if (pyStr ("Error")).isPrefixOf (pyStr ("Error counters cleared on Gi0/1")) then none
        else some (pyStr ("Error counters cleared on Gi0/1")) := rfl
    rw [hbeta, if_pos (by decide)]
